import Mathlib

/-!
Verification development for the DALI batched GPU image-warping engine
(`WarpGPU` in `dali/kernels/imgproc/warp_gpu.h`), its LMDB sharded reader
(`LMDBLoader`) and the `ExternalSource` producer/consumer hand-off.

The host-side control flow of `WarpGPU::Setup` / `WarpGPU::Run` is embedded
shallowly: device pointers become natural-number identifiers, asynchronous
copies become `Transfer` records and kernel launches become `LaunchRecord`
values, so that the staging and dispatch decisions of the source are plain
data amenable to proof.  The bodies of the `WarpSetup` helper object
(`GetOutputShape`, classification, block decomposition, `PrepareSamples`,
`ValidateOutputShape`) live in `warp_setup.cuh`, which is not among the
repository files; those definitions are modelled from the specification, as
marked in their doc comments.
-/

namespace DaliWarp

/-- Spatial size (height, width) of one sample, mirroring `TensorShape<2>`. -/
structure Size2 where
  h : Nat
  w : Nat
deriving DecidableEq, Repr

/-- A full HWC tensor shape, mirroring `TensorShape<3>` (spatial_ndim = 2 plus
one channel dimension). -/
structure TensorShape3 where
  h : Nat
  w : Nat
  c : Nat
deriving DecidableEq, Repr

/-- The closed set of interpolation modes carried per sample. -/
inductive DALIInterpType where
  | DALI_INTERP_NN
  | DALI_INTERP_LINEAR
  | DALI_INTERP_CUBIC
deriving DecidableEq, Repr

/-- Host-side validation failures of the engine (spec section 7). -/
inductive WarpError where
  | ShapeMismatch
  | ArgumentCountMismatch
  | InvalidParameterLayout
deriving DecidableEq, Repr

/-- A device tensor handed to the engine: an opaque device pointer (modelled
as a `Nat` identifier) together with its HWC shape.  Stands for one element
of `InListGPU` / `OutListGPU`. -/
structure GPUBuffer where
  ptr : Nat
  shape : TensorShape3
deriving DecidableEq, Repr

/-- The mapping-parameter device array `InTensorGPU<MappingParams, 1>`: the
engine never reads its contents, only forwards the device pointer `data`. -/
structure MappingTensor where
  data : Nat
deriving DecidableEq, Repr

/-- Per-sample descriptor.  Shapes are filled by `Setup`; pointers, input
shape and interpolation mode are filled later by `PrepareSamples` (hence the
`Option` fields, `none` standing for not-yet-filled). -/
structure SampleDesc where
  outShape : TensorShape3
  outPtr : Option Nat
  inPtr : Option Nat
  inShape : Option TensorShape3
  interp : Option DALIInterpType
deriving DecidableEq, Repr

/-- Per-tile descriptor of the variable-size path: owning sample index, tile
origin and tile extent in output coordinates. -/
structure BlockDesc where
  sample : Nat
  originY : Nat
  originX : Nat
  extentH : Nat
  extentW : Nat
deriving DecidableEq, Repr

/-- The output-coordinate rectangle of a block: does it contain pixel
(y, x)? -/
def BlockDesc.covers (b : BlockDesc) (y x : Nat) : Bool :=
  decide (b.originY ≤ y ∧ y < b.originY + b.extentH ∧
          b.originX ≤ x ∧ x < b.originX + b.extentW)

/-- Modelled from the spec: `WarpSetup::GetOutputShape` lives in
`warp_setup.cuh`, absent from the repository files.  Spec section 4.1: the
final output shape is a function of the requested size (identity in the
simple case) and the batch keeps the HWC layout with the channel count taken
from the input, so sample i gets spatial extent `output_sizes[i]` and the
channel count of `in_shapes[i]`. -/
def GetOutputShape (in_shapes : List TensorShape3) (output_sizes : List Size2) :
    List TensorShape3 :=
  List.zipWith (fun s sz => ⟨sz.h, sz.w, s.c⟩) in_shapes output_sizes

/-- Modelled from the spec: the classification predicate of `warp_setup.cuh`
(absent from the repository files).  Spec section 4.1: the batch is Uniform
iff every sample shares the same output spatial size and channel count,
i.e. all computed output shapes are equal. -/
def IsUniformShapeList : List TensorShape3 → Bool
  | [] => true
  | s :: rest => rest.all fun x => decide (x = s)

/-- Modelled from the spec: the fixed maximum tile size of the block
decomposer, a tunable constant not derived from input data (spec
section 4.4). -/
def tileSize : Size2 := ⟨256, 256⟩

/-- Modelled from the spec: the tiles of one sample of output shape `sh`,
tile size `t` (spec section 4.4).  Rows and columns of tiles are laid out on
a grid of nominal extent `t`; a trailing partial tile keeps its true smaller
extent (`min`), never padded. -/
def sampleBlocks (i : Nat) (sh : TensorShape3) (t : Size2) : List BlockDesc :=
  (List.range ((sh.h + t.h - 1) / t.h)).flatMap fun r =>
    (List.range ((sh.w + t.w - 1) / t.w)).map fun c =>
      ⟨i, r * t.h, c * t.w, min t.h (sh.h - r * t.h), min t.w (sh.w - c * t.w)⟩

/-- Modelled from the spec: block decomposition of the whole batch in
sample-major order — all tiles of sample `i`, then sample `i+1`, … (spec
section 4.4). -/
def MakeBlocksFrom (i : Nat) (shapes : List TensorShape3) (t : Size2) :
    List BlockDesc :=
  match shapes with
  | [] => []
  | sh :: rest => sampleBlocks i sh t ++ MakeBlocksFrom (i + 1) rest t

/-- Modelled from the spec: all blocks of the batch, starting at sample 0. -/
def MakeBlocks (shapes : List TensorShape3) (t : Size2) : List BlockDesc :=
  MakeBlocksFrom 0 shapes t

/-- The `WarpSetup` engine state (spec section 3): sample descriptors, block
descriptors (variable path only), the batch classification and — for the
Uniform case — the shared output size and shared tile size. -/
structure WarpSetup where
  samples : List SampleDesc
  blocks : List BlockDesc
  uniform : Bool
  uniformOutputSize : Size2
  uniformBlockSize : Size2
deriving DecidableEq, Repr

/-- Accessor mirroring `WarpSetup::IsUniformSize()`. -/
def WarpSetup.IsUniformSize (s : WarpSetup) : Bool := s.uniform

/-- Accessor mirroring `WarpSetup::Samples()`. -/
def WarpSetup.Samples (s : WarpSetup) : List SampleDesc := s.samples

/-- Accessor mirroring `WarpSetup::Blocks()`. -/
def WarpSetup.Blocks (s : WarpSetup) : List BlockDesc := s.blocks

/-- Accessor mirroring `WarpSetup::UniformOutputSize()`. -/
def WarpSetup.UniformOutputSize (s : WarpSetup) : Size2 := s.uniformOutputSize

/-- Accessor mirroring `WarpSetup::UniformBlockSize()`. -/
def WarpSetup.UniformBlockSize (s : WarpSetup) : Size2 := s.uniformBlockSize

/-- Modelled from the spec: `WarpSetup::Setup(out_shapes)` of
`warp_setup.cuh` (absent from the repository files).  Spec sections 3, 4.1,
4.4: the state is rebuilt from scratch on every call — sample descriptors
get their output shapes, the batch is classified, and on the Variable path
the block list is produced; on the Uniform path the shared output size and
tile size are recorded instead. -/
def WarpSetup.Setup (out_shapes : List TensorShape3) : WarpSetup :=
  let u := IsUniformShapeList out_shapes
  { samples := out_shapes.map fun s => ⟨s, none, none, none, none⟩
    blocks := if u then [] else MakeBlocks out_shapes tileSize
    uniform := u
    uniformOutputSize :=
      match out_shapes with
      | [] => ⟨0, 0⟩
      | s :: _ => ⟨s.h, s.w⟩
    uniformBlockSize := tileSize }

/-- Modelled from the spec: `WarpSetup::ValidateOutputShape` (absent from the
repository files).  Spec section 4.3: before staging, Run recomputes the
output shapes from the input shapes and requested sizes and requires the
caller-supplied output buffer shapes to be identical; a violation is a
ShapeMismatch error. -/
def WarpSetup.ValidateOutputShape (s : WarpSetup)
    (out_shape in_shape : List TensorShape3) (output_sizes : List Size2) :
    Except WarpError Unit :=
  if out_shape = GetOutputShape in_shape output_sizes then .ok () else .error .ShapeMismatch

/-- Filling of one sample descriptor by `PrepareSamples`: device pointers,
input shape and interpolation mode. -/
def fillSample (s : SampleDesc) (o i : GPUBuffer) (m : DALIInterpType) : SampleDesc :=
  ⟨s.outShape, some o.ptr, some i.ptr, some i.shape, some m⟩

/-- Modelled from the spec: `WarpSetup::PrepareSamples` (absent from the
repository files).  Spec section 4.2: pure host-side bookkeeping that fills
pointers and interpolation modes into the sample descriptors; fails with
ArgumentCountMismatch if any argument sequence length disagrees with the
batch size recorded at Setup time. -/
def WarpSetup.PrepareSamples (s : WarpSetup) (out inp : List GPUBuffer)
    (interp : List DALIInterpType) : Except WarpError WarpSetup :=
  if out.length = s.samples.length ∧ inp.length = s.samples.length ∧
      interp.length = s.samples.length then
    let filled :=
      List.zipWith (fun sd oim => fillSample sd oim.1 oim.2.1 oim.2.2)
        s.samples (out.zip (inp.zip interp))
    .ok { s with samples := filled }
  else
    .error .ArgumentCountMismatch

/-- Resource requirements returned by `Setup`: the per-sample output shapes
the surrounding pipeline must allocate (spec section 6). -/
structure KernelRequirements where
  output_shapes : List TensorShape3
deriving DecidableEq, Repr

/-- The engine object of `warp_gpu.h`: it owns exactly one `WarpSetup`. -/
structure WarpGPU where
  setup : WarpSetup
deriving DecidableEq, Repr

/-- One asynchronous host-to-device staging operation of the scratchpad:
`ToGPU` stages one descriptor array, `ToContiguousGPU` packs the sample and
block arrays into a single contiguous transfer. -/
inductive Transfer where
  | toGPU (samples : List SampleDesc)
  | toContiguousGPU (samples : List SampleDesc) (blocks : List BlockDesc)
deriving DecidableEq, Repr

/-- One kernel launch, as enqueued by `WarpGPU::Run`: either the uniform-size
kernel with the staged samples, the shared output size, the shared tile size,
the mapping-parameter device pointer and the border value, or the
variable-size kernel with the staged samples, the staged blocks, the mapping
pointer and the border value. -/
inductive LaunchRecord where
  | BatchWarpUniformSize (samples : List SampleDesc) (outSize blockSize : Size2)
      (mapping : Nat) (border : Nat)
  | BatchWarpVariableSize (samples : List SampleDesc) (blocks : List BlockDesc)
      (mapping : Nat) (border : Nat)
deriving DecidableEq, Repr

/-- Which of the two kernels a launch record invokes. -/
def LaunchRecord.isUniformLaunch : LaunchRecord → Bool
  | .BatchWarpUniformSize .. => true
  | .BatchWarpVariableSize .. => false

/-- `WarpGPU::Setup` (warp_gpu.h, lines 50-59): checks that the input batch
and the requested-output-size list have the same length (the source's
precondition check on line 56; its violation is the ShapeMismatch failure of
spec section 4.1), computes the per-sample output shapes and rebuilds the
`WarpSetup` state, returning the kernel requirements.  The `mapping`,
`interp` and `border` arguments are accepted but never read, exactly as in
the source. -/
def WarpGPU.Setup (g : WarpGPU) (inp : List GPUBuffer) (mapping : MappingTensor)
    (output_sizes : List Size2) (interp : List DALIInterpType) (border : Nat) :
    Except WarpError (KernelRequirements × WarpGPU) :=
  if inp.length = output_sizes.length then
    let out_shapes := GetOutputShape (inp.map GPUBuffer.shape) output_sizes
    .ok (⟨out_shapes⟩, ⟨WarpSetup.Setup out_shapes⟩)
  else
    .error .ShapeMismatch

/-- The outcome of a successful `WarpGPU::Run`: the engine state after
`PrepareSamples`, the staging transfers enqueued on the stream, and the one
kernel launch. -/
structure RunResult where
  engine : WarpGPU
  transfers : List Transfer
  launch : LaunchRecord
deriving DecidableEq, Repr

/-- `WarpGPU::Run` (warp_gpu.h, lines 61-103): validate the caller-supplied
output shapes, fill the sample descriptors, then — depending on the batch
classification — either stage the samples with `ToGPU` and launch
`BatchWarpUniformSize`, or stage samples and blocks in one contiguous
transfer with `ToContiguousGPU` and launch `BatchWarpVariableSize`.  A
validation failure propagates before any transfer or launch is recorded. -/
def WarpGPU.Run (g : WarpGPU) (out inp : List GPUBuffer) (mapping : MappingTensor)
    (output_sizes : List Size2) (interp : List DALIInterpType) (border : Nat) :
    Except WarpError RunResult :=
  match g.setup.ValidateOutputShape (out.map GPUBuffer.shape)
      (inp.map GPUBuffer.shape) output_sizes with
  | .error e => .error e
  | .ok _ =>
    match g.setup.PrepareSamples out inp interp with
    | .error e => .error e
    | .ok st =>
      if st.IsUniformSize then
        .ok ⟨⟨st⟩, [Transfer.toGPU st.Samples],
             LaunchRecord.BatchWarpUniformSize st.Samples st.UniformOutputSize
               st.UniformBlockSize mapping.data border⟩
      else
        .ok ⟨⟨st⟩, [Transfer.toContiguousGPU st.Samples st.Blocks],
             LaunchRecord.BatchWarpVariableSize st.Samples st.Blocks
               mapping.data border⟩

/-- The hand-off state of `ExternalSource<CPUBackend>`: the processed-sample
counter and the busy flag (external_source.cc, lines 35-43). -/
structure ExtSourceState where
  samples_processed : Nat
  busy : Bool
deriving DecidableEq, Repr

/-- Result of one consume step: the new state and whether the condition
variable was notified. -/
structure ConsumeResult where
  state : ExtSourceState
  notified : Bool
deriving DecidableEq, Repr

/-- The counter protocol at the tail of `ExternalSource<CPUBackend>::RunImpl`
(external_source.cc, lines 35-43): under the mutex, the counter is
incremented; when it reaches the batch size it is reset to zero, the busy
flag is cleared and the feeding thread is notified.  The mutexes serialize
the steps; the step itself is this pure function. -/
def ExternalSourceRunImplStep (batch_size : Nat) (st : ExtSourceState) : ConsumeResult :=
  let sp := st.samples_processed + 1
  if batch_size ≤ sp then
    ⟨⟨0, false⟩, true⟩
  else
    ⟨⟨sp, st.busy⟩, false⟩

/-- The LMDB loader state (lmdb.h): the database (each entry's value as a
byte list; keys play no part in any claim), the LMDB cursor position, the
loader's `current_index_` and the shard configuration inherited from
`Loader`. -/
structure LMDBState where
  db : List (List Nat)
  pos : Nat
  current_index : Nat
  shard_id : Nat
  num_shards : Nat
deriving DecidableEq, Repr

/-- Modelled from the spec: `start_index` comes from the `Loader` base class
(loader.h, absent from the repository files).  The spec says the reader wraps
"to the start of its shard"; shard s of an N-entry store starts at entry
s * N / num_shards, so that the shards partition the store. -/
def start_index (shard_id num_shards size : Nat) : Nat :=
  shard_id * size / num_shards

/-- `lmdb::SeekLMDB` with `MDB_NEXT`: advances the cursor unless the end of
the database is reached, in which case `MDB_NOTFOUND` leaves the cursor in
place (and the source ignores the returned flag). -/
def seekNext (len p : Nat) : Nat :=
  if p + 1 < len then p + 1 else p

/-- First entry of the loader's shard. -/
def LMDBState.shard_start (st : LMDBState) : Nat :=
  start_index st.shard_id st.num_shards st.db.length

/-- One-past-last entry of the loader's shard (the start of the next
shard). -/
def LMDBState.shard_end (st : LMDBState) : Nat :=
  start_index (st.shard_id + 1) st.num_shards st.db.length

/-- `LMDBLoader::Reset` (lmdb.h, lines 140-152): set `current_index_` to the
start of the shard, seek the cursor to `MDB_FIRST`, and when wrapping to the
shard advance it `current_index_` entries with `MDB_NEXT`. -/
def LMDBState.Reset (st : LMDBState) (wrap_to_shard : Bool) : LMDBState :=
  let ci := start_index st.shard_id st.num_shards st.db.length
  let p :=
    if wrap_to_shard then
      (List.range ci).foldl (fun q _ => seekNext st.db.length q) 0
    else
      0
  ⟨st.db, p, ci, st.shard_id, st.num_shards⟩

/-- Modelled from the spec: `MoveToNextShard` comes from the `Loader` base
class (absent from the repository files).  Per the spec's reader contract,
when the index passes the end of the loader's shard the reader wraps around
by `Reset(true)`. -/
def LMDBState.MoveToNextShard (st : LMDBState) : LMDBState :=
  if st.shard_end ≤ st.current_index then st.Reset true else st

/-- Modelled from the spec: `ShouldSkipImage` comes from the `Loader` base
class (absent from the repository files).  The spec's reader contract —
"yields one raw byte buffer per call" — has no caching, so no sample is ever
skipped. -/
def ShouldSkipImage (st : LMDBState) : Bool := false

/-- A host tensor: its shape vector and its byte data.  `Resize({n})` makes
the shape `[n]`; the copy fills `data`. -/
structure CPUTensor where
  shape : List Nat
  data : List Nat
deriving DecidableEq, Repr

/-- `LMDBLoader::ReadSample` (lmdb.h, lines 83-114): seek `MDB_NEXT`
(ignoring the returned flag), increment `current_index_`, wrap to the shard
start via `MoveToNextShard` when the index passed the shard end, and copy the
value at the resulting cursor into a uint8 tensor resized to the value's
byte size. -/
def LMDBState.ReadSample (st : LMDBState) : LMDBState × CPUTensor :=
  let st1 : LMDBState :=
    ⟨st.db, seekNext st.db.length st.pos, st.current_index + 1, st.shard_id, st.num_shards⟩
  let st2 := st1.MoveToNextShard
  if ShouldSkipImage st2 then
    (st2, ⟨[0], []⟩)
  else
    let value := st2.db.getD st2.pos []
    (st2, ⟨[value.length], value⟩)

/-! ## Helper lemmas -/

theorem setup_samples_length (l : List TensorShape3) :
    (WarpSetup.Setup l).samples.length = l.length := by
  simp [WarpSetup.Setup]

theorem setup_uniform_eq (l : List TensorShape3) :
    (WarpSetup.Setup l).IsUniformSize = IsUniformShapeList l := rfl

theorem getOutputShape_length (l : List TensorShape3) (sz : List Size2) :
    (GetOutputShape l sz).length = min l.length sz.length := by
  unfold GetOutputShape
  rw [List.length_zipWith]

theorem isUniformShapeList_iff (l : List TensorShape3) :
    IsUniformShapeList l = true ↔ ∀ s ∈ l, ∀ u ∈ l, s = u := by
  cases l with
  | nil => simp [IsUniformShapeList]
  | cons a t =>
    unfold IsUniformShapeList
    rw [List.all_eq_true]
    constructor
    · intro h s hs u hu
      have ha : ∀ x ∈ t, x = a := by
        intro x hx
        exact of_decide_eq_true (h x hx)
      have hsa : s = a := by
        rcases List.mem_cons.mp hs with rfl | hs'
        · rfl
        · exact ha s hs'
      have hua : u = a := by
        rcases List.mem_cons.mp hu with rfl | hu'
        · rfl
        · exact ha u hu'
      rw [hsa, hua]
    · intro h x hx
      exact decide_eq_true (h x (List.mem_cons_of_mem a hx) a (List.mem_cons_self a t))

theorem prepareSamples_ok_fields {s : WarpSetup} {out inp : List GPUBuffer}
    {interp : List DALIInterpType} {st : WarpSetup}
    (h : WarpSetup.PrepareSamples s out inp interp = .ok st) :
    st.uniform = s.uniform ∧ st.blocks = s.blocks ∧
    st.uniformOutputSize = s.uniformOutputSize ∧
    st.uniformBlockSize = s.uniformBlockSize := by
  unfold WarpSetup.PrepareSamples at h
  split at h
  · injection h with h1
    rw [← h1]
    exact ⟨rfl, rfl, rfl, rfl⟩
  · exact absurd h (by simp)

theorem run_validate_error {g : WarpGPU} {out inp : List GPUBuffer}
    {mapping : MappingTensor} {output_sizes : List Size2}
    {interp : List DALIInterpType} {border : Nat} {e : WarpError}
    (h : g.setup.ValidateOutputShape (out.map GPUBuffer.shape)
      (inp.map GPUBuffer.shape) output_sizes = .error e) :
    WarpGPU.Run g out inp mapping output_sizes interp border = .error e := by
  unfold WarpGPU.Run
  rw [h]

theorem run_ok_of_validate_prepare {g : WarpGPU} {out inp : List GPUBuffer}
    {mapping : MappingTensor} {output_sizes : List Size2}
    {interp : List DALIInterpType} {border : Nat} {st : WarpSetup}
    (hv : g.setup.ValidateOutputShape (out.map GPUBuffer.shape)
      (inp.map GPUBuffer.shape) output_sizes = .ok ())
    (hp : g.setup.PrepareSamples out inp interp = .ok st) :
    ∃ r, WarpGPU.Run g out inp mapping output_sizes interp border = .ok r := by
  unfold WarpGPU.Run
  rw [hv, hp]
  by_cases hu : st.IsUniformSize = true
  · refine ⟨⟨⟨st⟩, [Transfer.toGPU st.Samples],
      LaunchRecord.BatchWarpUniformSize st.Samples st.UniformOutputSize
        st.UniformBlockSize mapping.data border⟩, ?_⟩
    simp [hu]
  · refine ⟨⟨⟨st⟩, [Transfer.toContiguousGPU st.Samples st.Blocks],
      LaunchRecord.BatchWarpVariableSize st.Samples st.Blocks mapping.data border⟩, ?_⟩
    simp [hu]

theorem run_ok_cases {g : WarpGPU} {out inp : List GPUBuffer} {mapping : MappingTensor}
    {output_sizes : List Size2} {interp : List DALIInterpType} {border : Nat}
    {r : RunResult}
    (h : WarpGPU.Run g out inp mapping output_sizes interp border = .ok r) :
    ∃ st, g.setup.PrepareSamples out inp interp = .ok st ∧ r.engine = ⟨st⟩ ∧
      ((st.IsUniformSize = true ∧
          r.transfers = [Transfer.toGPU st.Samples] ∧
          r.launch = LaunchRecord.BatchWarpUniformSize st.Samples st.UniformOutputSize
            st.UniformBlockSize mapping.data border)
        ∨ (st.IsUniformSize = false ∧
          r.transfers = [Transfer.toContiguousGPU st.Samples st.Blocks] ∧
          r.launch = LaunchRecord.BatchWarpVariableSize st.Samples st.Blocks
            mapping.data border)) := by
  unfold WarpGPU.Run at h
  split at h
  · exact absurd h (by simp)
  · split at h
    · exact absurd h (by simp)
    · rename_i st hprep
      refine ⟨st, hprep, ?_⟩
      by_cases hu : st.IsUniformSize = true
      · rw [if_pos hu] at h
        cases h
        exact ⟨rfl, Or.inl ⟨hu, rfl, rfl⟩⟩
      · rw [if_neg hu] at h
        cases h
        exact ⟨rfl, Or.inr ⟨Bool.eq_false_iff.mpr hu, rfl, rfl⟩⟩

/-! ## Claims -/

/-- C4: for every call to Setup where the sequence of input tensor shapes and
the sequence of requested output sizes have different lengths, Setup fails
with a ShapeMismatch error; with equal lengths it computes the per-sample
output shapes and returns them as the resource requirements. -/
theorem setup_length_mismatch (g : WarpGPU) (inp : List GPUBuffer)
    (mapping : MappingTensor) (output_sizes : List Size2)
    (interp : List DALIInterpType) (border : Nat) :
    (inp.length ≠ output_sizes.length →
      WarpGPU.Setup g inp mapping output_sizes interp border = .error .ShapeMismatch)
    ∧ (inp.length = output_sizes.length →
      WarpGPU.Setup g inp mapping output_sizes interp border =
        .ok (⟨GetOutputShape (inp.map GPUBuffer.shape) output_sizes⟩,
             ⟨WarpSetup.Setup (GetOutputShape (inp.map GPUBuffer.shape) output_sizes)⟩)) := by
  constructor
  · intro h
    simp [WarpGPU.Setup, h]
  · intro h
    simp [WarpGPU.Setup, h]

/-- Witness for C4: a batch of one input with an empty requested-size list
fails with ShapeMismatch; with the matching one-element size list Setup
returns the computed output shape. -/
theorem setup_length_mismatch_witness :
    WarpGPU.Setup ⟨⟨[], [], true, ⟨0, 0⟩, ⟨0, 0⟩⟩⟩ [⟨0, ⟨4, 4, 3⟩⟩] ⟨0⟩ [] [] 0 =
      .error .ShapeMismatch :=
  (setup_length_mismatch ⟨⟨[], [], true, ⟨0, 0⟩, ⟨0, 0⟩⟩⟩ [⟨0, ⟨4, 4, 3⟩⟩] ⟨0⟩ [] [] 0).1
    (by decide)

/-- C5: PrepareSamples fails with ArgumentCountMismatch exactly when one of
the output-buffer, input-buffer or interpolation-mode sequences has a length
different from the batch size recorded by the preceding Setup call (the
number of per-sample output shapes); with matching lengths it succeeds. -/
theorem prepareSamples_argument_count (out_shapes : List TensorShape3)
    (out inp : List GPUBuffer) (interp : List DALIInterpType) :
    (¬(out.length = out_shapes.length ∧ inp.length = out_shapes.length ∧
        interp.length = out_shapes.length) →
      (WarpSetup.Setup out_shapes).PrepareSamples out inp interp =
        .error .ArgumentCountMismatch)
    ∧ ((out.length = out_shapes.length ∧ inp.length = out_shapes.length ∧
        interp.length = out_shapes.length) →
      ∃ st, (WarpSetup.Setup out_shapes).PrepareSamples out inp interp = .ok st) := by
  have hn := setup_samples_length out_shapes
  constructor
  · intro h
    unfold WarpSetup.PrepareSamples
    rw [hn, if_neg h]
  · intro h
    unfold WarpSetup.PrepareSamples
    rw [hn, if_pos h]
    exact ⟨_, rfl⟩

/-- Witness for C5: with batch size 1 from Setup, an empty output-buffer list
is rejected with ArgumentCountMismatch. -/
theorem prepareSamples_argument_count_witness :
    (WarpSetup.Setup [⟨4, 4, 3⟩]).PrepareSamples [] [⟨0, ⟨4, 4, 3⟩⟩]
      [.DALI_INTERP_NN] = .error .ArgumentCountMismatch :=
  (prepareSamples_argument_count [⟨4, 4, 3⟩] [] [⟨0, ⟨4, 4, 3⟩⟩] [.DALI_INTERP_NN]).1
    (by decide)

/-- C7: calling Setup twice in a row with identical arguments produces
structurally identical results: the second call returns the same kernel
requirements and the same engine state (hence the same classification,
per-sample output shapes and tile counts) as the first. -/
theorem setup_idempotent (g g' : WarpGPU) (req : KernelRequirements)
    (inp : List GPUBuffer) (mapping : MappingTensor) (output_sizes : List Size2)
    (interp : List DALIInterpType) (border : Nat)
    (h : WarpGPU.Setup g inp mapping output_sizes interp border = .ok (req, g')) :
    WarpGPU.Setup g' inp mapping output_sizes interp border = .ok (req, g') := by
  unfold WarpGPU.Setup at h ⊢
  by_cases hc : inp.length = output_sizes.length
  · rw [if_pos hc] at h ⊢
    exact h
  · rw [if_neg hc] at h
    exact absurd h (by simp)

/-- Witness for C7: repeating a concrete successful Setup reproduces its
result exactly. -/
theorem setup_idempotent_witness :
    WarpGPU.Setup ⟨WarpSetup.Setup [⟨2, 2, 3⟩]⟩ [⟨0, ⟨4, 4, 3⟩⟩] ⟨0⟩ [⟨2, 2⟩]
      [.DALI_INTERP_NN] 0 =
      .ok (⟨[⟨2, 2, 3⟩]⟩, ⟨WarpSetup.Setup [⟨2, 2, 3⟩]⟩) :=
  setup_idempotent ⟨⟨[], [], true, ⟨0, 0⟩, ⟨0, 0⟩⟩⟩ ⟨WarpSetup.Setup [⟨2, 2, 3⟩]⟩
    ⟨[⟨2, 2, 3⟩]⟩ [⟨0, ⟨4, 4, 3⟩⟩] ⟨0⟩ [⟨2, 2⟩] [.DALI_INTERP_NN] 0 rfl

/-- C10: the result of WarpGPU::Setup depends only on the input tensor shapes
and the requested output sizes — two calls that agree on those but differ in
prior engine state, buffer pointers, mapping parameters, interpolation modes
or border value return identical results, because those arguments are never
read by Setup. -/
theorem setup_ignores_mapping_interp_border (g1 g2 : WarpGPU)
    (in1 in2 : List GPUBuffer) (m1 m2 : MappingTensor) (output_sizes : List Size2)
    (i1 i2 : List DALIInterpType) (b1 b2 : Nat)
    (hsh : in1.map GPUBuffer.shape = in2.map GPUBuffer.shape) :
    WarpGPU.Setup g1 in1 m1 output_sizes i1 b1 =
      WarpGPU.Setup g2 in2 m2 output_sizes i2 b2 := by
  have hlen : in1.length = in2.length := by
    have h := congrArg List.length hsh
    simpa using h
  unfold WarpGPU.Setup
  rw [hsh, hlen]

/-- Witness for C10: two Setup calls with equal input shapes but different
pointers, mapping tensors, interpolation modes and border values coincide. -/
theorem setup_ignores_mapping_interp_border_witness :
    WarpGPU.Setup ⟨⟨[], [], true, ⟨0, 0⟩, ⟨0, 0⟩⟩⟩ [⟨0, ⟨4, 4, 3⟩⟩] ⟨0⟩ [⟨2, 2⟩]
      [.DALI_INTERP_NN] 0 =
    WarpGPU.Setup ⟨WarpSetup.Setup [⟨9, 9, 9⟩]⟩ [⟨7, ⟨4, 4, 3⟩⟩] ⟨5⟩ [⟨2, 2⟩]
      [.DALI_INTERP_LINEAR] 255 :=
  setup_ignores_mapping_interp_border ⟨⟨[], [], true, ⟨0, 0⟩, ⟨0, 0⟩⟩⟩
    ⟨WarpSetup.Setup [⟨9, 9, 9⟩]⟩ [⟨0, ⟨4, 4, 3⟩⟩] [⟨7, ⟨4, 4, 3⟩⟩] ⟨0⟩ ⟨5⟩
    [⟨2, 2⟩] [.DALI_INTERP_NN] [.DALI_INTERP_LINEAR] 0 255 (by decide)

/-- C1: after a Setup for given input shapes and requested sizes, a Run whose
caller-supplied output buffer shapes differ from the shapes Setup computed
fails with a ShapeMismatch error — the error is returned before any
transfer, launch or state update is produced; when the shapes match,
validation passes and Run proceeds to staging and kernel launch. -/
theorem run_validates_output_shapes (g0 : WarpGPU) (req : KernelRequirements)
    (g : WarpGPU) (out inp : List GPUBuffer) (mapping : MappingTensor)
    (output_sizes : List Size2) (interp : List DALIInterpType) (border : Nat)
    (hsetup : WarpGPU.Setup g0 inp mapping output_sizes interp border = .ok (req, g))
    (hinterp : interp.length = output_sizes.length) :
    (out.map GPUBuffer.shape ≠ req.output_shapes →
      WarpGPU.Run g out inp mapping output_sizes interp border = .error .ShapeMismatch)
    ∧ (out.map GPUBuffer.shape = req.output_shapes →
      ∃ r, WarpGPU.Run g out inp mapping output_sizes interp border = .ok r) := by
  unfold WarpGPU.Setup at hsetup
  by_cases hlen : inp.length = output_sizes.length
  · rw [if_pos hlen] at hsetup
    simp only [Except.ok.injEq, Prod.mk.injEq] at hsetup
    obtain ⟨hreq, hg⟩ := hsetup
    subst hreq
    subst hg
    constructor
    · intro hne
      apply run_validate_error
      show WarpSetup.ValidateOutputShape _ _ _ _ = _
      unfold WarpSetup.ValidateOutputShape
      rw [if_neg]
      exact fun hc => hne hc
    · intro heq
      have hGlen : (GetOutputShape (inp.map GPUBuffer.shape) output_sizes).length =
          output_sizes.length := by
        rw [getOutputShape_length]
        simp [hlen]
      have hout : out.length = output_sizes.length := by
        have h := congrArg List.length heq
        simp only [List.length_map] at h
        rw [h]
        exact hGlen
      have hv : WarpSetup.ValidateOutputShape
          (WarpSetup.Setup (GetOutputShape (inp.map GPUBuffer.shape) output_sizes))
          (out.map GPUBuffer.shape) (inp.map GPUBuffer.shape) output_sizes = .ok () := by
        unfold WarpSetup.ValidateOutputShape
        rw [if_pos heq]
      have hp : ∃ st, WarpSetup.PrepareSamples
          (WarpSetup.Setup (GetOutputShape (inp.map GPUBuffer.shape) output_sizes))
          out inp interp = .ok st := by
        unfold WarpSetup.PrepareSamples
        rw [setup_samples_length, if_pos]
        · exact ⟨_, rfl⟩
        · refine ⟨?_, ?_, ?_⟩
          · rw [hout, hGlen]
          · rw [hlen, hGlen]
          · rw [hinterp, hGlen]
      obtain ⟨st, hpst⟩ := hp
      exact run_ok_of_validate_prepare hv hpst
  · rw [if_neg hlen] at hsetup
    exact absurd hsetup (by simp)

/-- Witness for C1: a Run handed an output buffer of shape 2 by 2 after a
Setup that computed a 1 by 1 output shape fails with ShapeMismatch. -/
theorem run_validates_output_shapes_witness :
    WarpGPU.Run ⟨WarpSetup.Setup [⟨1, 1, 1⟩]⟩ [⟨1, ⟨2, 2, 3⟩⟩] [⟨0, ⟨1, 1, 1⟩⟩]
      ⟨0⟩ [⟨1, 1⟩] [.DALI_INTERP_NN] 0 = .error .ShapeMismatch :=
  (run_validates_output_shapes ⟨⟨[], [], true, ⟨0, 0⟩, ⟨0, 0⟩⟩⟩ ⟨[⟨1, 1, 1⟩]⟩
    ⟨WarpSetup.Setup [⟨1, 1, 1⟩]⟩ [⟨1, ⟨2, 2, 3⟩⟩] [⟨0, ⟨1, 1, 1⟩⟩] ⟨0⟩ [⟨1, 1⟩]
    [.DALI_INTERP_NN] 0 rfl rfl).1 (by decide)

/-- C2: Setup classifies a batch Uniform exactly when every sample shares the
same output spatial size and channel count (all computed output shapes
coincide), otherwise Variable, and the kernel a successful Run launches
follows that classification. -/
theorem classification_uniform_iff (out_shapes : List TensorShape3)
    (out inp : List GPUBuffer) (mapping : MappingTensor) (output_sizes : List Size2)
    (interp : List DALIInterpType) (border : Nat) (r : RunResult)
    (hrun : WarpGPU.Run ⟨WarpSetup.Setup out_shapes⟩ out inp mapping output_sizes
      interp border = .ok r) :
    ((WarpSetup.Setup out_shapes).IsUniformSize = true ↔
      ∀ s ∈ out_shapes, ∀ u ∈ out_shapes, s = u)
    ∧ r.launch.isUniformLaunch = (WarpSetup.Setup out_shapes).IsUniformSize := by
  constructor
  · rw [setup_uniform_eq]
    exact isUniformShapeList_iff out_shapes
  · obtain ⟨st, hprep, -, hcases⟩ := run_ok_cases hrun
    have huni : st.uniform = (WarpSetup.Setup out_shapes).uniform :=
      (prepareSamples_ok_fields hprep).1
    rcases hcases with ⟨hu, -, hl⟩ | ⟨hu, -, hl⟩
    · rw [hl]
      show true = (WarpSetup.Setup out_shapes).IsUniformSize
      have hu' : st.uniform = true := hu
      unfold WarpSetup.IsUniformSize
      rw [← huni, hu']
    · rw [hl]
      show false = (WarpSetup.Setup out_shapes).IsUniformSize
      have hu' : st.uniform = false := hu
      unfold WarpSetup.IsUniformSize
      rw [← huni, hu']

/-- Witness for C2: a singleton batch is classified Uniform and its Run
launches the uniform kernel. -/
theorem classification_uniform_iff_witness :
    ((WarpSetup.Setup [⟨1, 1, 1⟩]).IsUniformSize = true ↔
      ∀ s ∈ [(⟨1, 1, 1⟩ : TensorShape3)], ∀ u ∈ [(⟨1, 1, 1⟩ : TensorShape3)], s = u)
    ∧ (RunResult.mk
        ⟨⟨[⟨⟨1, 1, 1⟩, some 1, some 0, some ⟨1, 1, 1⟩, some .DALI_INTERP_NN⟩], [],
          true, ⟨1, 1⟩, ⟨256, 256⟩⟩⟩
        [Transfer.toGPU [⟨⟨1, 1, 1⟩, some 1, some 0, some ⟨1, 1, 1⟩, some .DALI_INTERP_NN⟩]]
        (LaunchRecord.BatchWarpUniformSize
          [⟨⟨1, 1, 1⟩, some 1, some 0, some ⟨1, 1, 1⟩, some .DALI_INTERP_NN⟩]
          ⟨1, 1⟩ ⟨256, 256⟩ 0 0)).launch.isUniformLaunch =
        (WarpSetup.Setup [⟨1, 1, 1⟩]).IsUniformSize :=
  classification_uniform_iff [⟨1, 1, 1⟩] [⟨1, ⟨1, 1, 1⟩⟩] [⟨0, ⟨1, 1, 1⟩⟩] ⟨0⟩
    [⟨1, 1⟩] [.DALI_INTERP_NN] 0 _ rfl

/-- C6: a successful Run records exactly one kernel launch, selected by the
classification: on the Uniform path one `ToGPU` staging of the samples and a
`BatchWarpUniformSize` launch receiving the staged samples, the shared output
size, the shared tile size, the mapping device pointer and the border value;
on the Variable path one contiguous `ToContiguousGPU` staging of samples and
blocks and a `BatchWarpVariableSize` launch receiving the staged samples, the
staged blocks, the mapping device pointer and the border value. -/
theorem run_dispatch_exclusive (g : WarpGPU) (out inp : List GPUBuffer)
    (mapping : MappingTensor) (output_sizes : List Size2)
    (interp : List DALIInterpType) (border : Nat) (r : RunResult)
    (hrun : WarpGPU.Run g out inp mapping output_sizes interp border = .ok r) :
    (r.engine.setup.IsUniformSize = true →
      r.transfers = [Transfer.toGPU r.engine.setup.Samples] ∧
      r.launch = LaunchRecord.BatchWarpUniformSize r.engine.setup.Samples
        r.engine.setup.UniformOutputSize r.engine.setup.UniformBlockSize
        mapping.data border)
    ∧ (r.engine.setup.IsUniformSize = false →
      r.transfers = [Transfer.toContiguousGPU r.engine.setup.Samples
        r.engine.setup.Blocks] ∧
      r.launch = LaunchRecord.BatchWarpVariableSize r.engine.setup.Samples
        r.engine.setup.Blocks mapping.data border) := by
  obtain ⟨st, -, heng, hcases⟩ := run_ok_cases hrun
  rw [heng]
  rcases hcases with ⟨hu, ht, hl⟩ | ⟨hu, ht, hl⟩
  · constructor
    · intro _
      exact ⟨ht, hl⟩
    · intro hfalse
      have hfalse' : st.IsUniformSize = false := hfalse
      rw [hu] at hfalse'
      exact absurd hfalse' (by simp)
  · constructor
    · intro htrue
      have htrue' : st.IsUniformSize = true := htrue
      rw [hu] at htrue'
      exact absurd htrue' (by simp)
    · intro _
      exact ⟨ht, hl⟩

/-- Witness for C6: the concrete uniform Run of a singleton batch stages the
samples with one `ToGPU` transfer and launches the uniform kernel with the
staged samples, the shared sizes, the mapping pointer and the border. -/
theorem run_dispatch_exclusive_witness :
    (RunResult.mk
        ⟨⟨[⟨⟨1, 1, 1⟩, some 1, some 0, some ⟨1, 1, 1⟩, some .DALI_INTERP_NN⟩], [],
          true, ⟨1, 1⟩, ⟨256, 256⟩⟩⟩
        [Transfer.toGPU [⟨⟨1, 1, 1⟩, some 1, some 0, some ⟨1, 1, 1⟩, some .DALI_INTERP_NN⟩]]
        (LaunchRecord.BatchWarpUniformSize
          [⟨⟨1, 1, 1⟩, some 1, some 0, some ⟨1, 1, 1⟩, some .DALI_INTERP_NN⟩]
          ⟨1, 1⟩ ⟨256, 256⟩ 0 0)).transfers =
      [Transfer.toGPU [⟨⟨1, 1, 1⟩, some 1, some 0, some ⟨1, 1, 1⟩, some .DALI_INTERP_NN⟩]]
    ∧ (RunResult.mk
        ⟨⟨[⟨⟨1, 1, 1⟩, some 1, some 0, some ⟨1, 1, 1⟩, some .DALI_INTERP_NN⟩], [],
          true, ⟨1, 1⟩, ⟨256, 256⟩⟩⟩
        [Transfer.toGPU [⟨⟨1, 1, 1⟩, some 1, some 0, some ⟨1, 1, 1⟩, some .DALI_INTERP_NN⟩]]
        (LaunchRecord.BatchWarpUniformSize
          [⟨⟨1, 1, 1⟩, some 1, some 0, some ⟨1, 1, 1⟩, some .DALI_INTERP_NN⟩]
          ⟨1, 1⟩ ⟨256, 256⟩ 0 0)).launch =
      LaunchRecord.BatchWarpUniformSize
        [⟨⟨1, 1, 1⟩, some 1, some 0, some ⟨1, 1, 1⟩, some .DALI_INTERP_NN⟩]
        ⟨1, 1⟩ ⟨256, 256⟩ 0 0 :=
  (run_dispatch_exclusive ⟨WarpSetup.Setup [⟨1, 1, 1⟩]⟩ [⟨1, ⟨1, 1, 1⟩⟩]
    [⟨0, ⟨1, 1, 1⟩⟩] ⟨0⟩ [⟨1, 1⟩] [.DALI_INTERP_NN] 0 _ rfl).1 rfl

/-- C8: in the producer/consumer hand-off, a consume step increments the
processed-sample counter; exactly when the counter reaches the batch size it
is reset to zero, the busy flag is cleared and the feeding thread is
notified, and otherwise counter and busy flag are simply carried forward
un-notified; hence after any consume step the counter stays strictly below
the batch size. -/
theorem external_source_counter_protocol (batch_size : Nat) (st : ExtSourceState)
    (hbs : 0 < batch_size) (hinv : st.samples_processed < batch_size) :
    (ExternalSourceRunImplStep batch_size st).state.samples_processed < batch_size
    ∧ (st.samples_processed + 1 = batch_size ↔
        (ExternalSourceRunImplStep batch_size st).state.samples_processed = 0 ∧
        (ExternalSourceRunImplStep batch_size st).state.busy = false ∧
        (ExternalSourceRunImplStep batch_size st).notified = true)
    ∧ (st.samples_processed + 1 ≠ batch_size →
        (ExternalSourceRunImplStep batch_size st).state.samples_processed =
          st.samples_processed + 1 ∧
        (ExternalSourceRunImplStep batch_size st).state.busy = st.busy ∧
        (ExternalSourceRunImplStep batch_size st).notified = false) := by
  unfold ExternalSourceRunImplStep
  by_cases h : batch_size ≤ st.samples_processed + 1
  · have heq : st.samples_processed + 1 = batch_size := by omega
    rw [if_pos h]
    refine ⟨hbs, ?_, ?_⟩
    · constructor
      · intro _
        exact ⟨rfl, rfl, rfl⟩
      · intro _
        exact heq
    · intro hne
      exact absurd heq hne
  · have hne : st.samples_processed + 1 ≠ batch_size := by omega
    rw [if_neg h]
    refine ⟨?_, ?_, ?_⟩
    · show st.samples_processed + 1 < batch_size
      omega
    · constructor
      · intro hc
        exact absurd hc hne
      · rintro ⟨-, -, hfalse⟩
        exact absurd hfalse (by simp)
    · intro _
      exact ⟨rfl, rfl, rfl⟩

/-- Witness for C8: with batch size 2 and one sample already processed, the
step resets the counter, clears busy and notifies. -/
theorem external_source_counter_protocol_witness :
    (ExternalSourceRunImplStep 2 ⟨1, true⟩).state.samples_processed < 2
    ∧ (1 + 1 = 2 ↔
        (ExternalSourceRunImplStep 2 ⟨1, true⟩).state.samples_processed = 0 ∧
        (ExternalSourceRunImplStep 2 ⟨1, true⟩).state.busy = false ∧
        (ExternalSourceRunImplStep 2 ⟨1, true⟩).notified = true)
    ∧ (1 + 1 ≠ 2 →
        (ExternalSourceRunImplStep 2 ⟨1, true⟩).state.samples_processed = 1 + 1 ∧
        (ExternalSourceRunImplStep 2 ⟨1, true⟩).state.busy = true ∧
        (ExternalSourceRunImplStep 2 ⟨1, true⟩).notified = false) :=
  external_source_counter_protocol 2 ⟨1, true⟩ (by decide) (by decide)

theorem foldl_seekNext (len : Nat) :
    ∀ (n p : Nat), p + n < len →
      (List.range n).foldl (fun q _ => seekNext len q) p = p + n := by
  intro n
  induction n with
  | zero =>
    intro p _
    simp
  | succ n ih =>
    intro p h
    rw [List.range_succ, List.foldl_append, ih p (by omega)]
    unfold seekNext
    simp only [List.foldl_cons, List.foldl_nil]
    rw [if_pos (by omega)]
    omega

theorem start_index_lt {i n len : Nat} (hn : 0 < n) (hi : i < n) (hlen : 0 < len) :
    start_index i n len < len := by
  unfold start_index
  have h1 : i * len < n * len := mul_lt_mul_of_pos_right hi hlen
  have h2 : i * len < len * n := by rw [Nat.mul_comm len n]; exact h1
  exact (Nat.div_lt_iff_lt_mul hn).mpr h2

theorem start_index_le_len {i n len : Nat} (hn : 0 < n) (hi : i ≤ n) :
    start_index i n len ≤ len := by
  unfold start_index
  have h1 : i * len ≤ n * len := mul_le_mul_right' hi len
  calc i * len / n ≤ n * len / n := Nat.div_le_div_right h1
  _ = len := Nat.mul_div_cancel_left len hn

/-- C9: every ReadSample call of the sharded reader advances `current_index`
by one entry — wrapping to the start index of its shard when the index
passes the shard end — keeps the LMDB cursor at that entry, and yields the
current entry's value copied into a tensor whose single shape extent equals
the value's byte size. -/
theorem moveToNextShard_lt {s : LMDBState} (h : s.current_index < s.shard_end) :
    s.MoveToNextShard = s := by
  unfold LMDBState.MoveToNextShard
  rw [if_neg]
  omega

theorem moveToNextShard_ge {s : LMDBState} (h : s.shard_end ≤ s.current_index) :
    s.MoveToNextShard = s.Reset true := by
  unfold LMDBState.MoveToNextShard
  rw [if_pos h]

theorem reset_wrap (s : LMDBState)
    (h : start_index s.shard_id s.num_shards s.db.length < s.db.length) :
    s.Reset true = ⟨s.db, start_index s.shard_id s.num_shards s.db.length,
      start_index s.shard_id s.num_shards s.db.length, s.shard_id, s.num_shards⟩ := by
  unfold LMDBState.Reset
  dsimp only
  rw [if_pos rfl]
  rw [foldl_seekNext s.db.length (start_index s.shard_id s.num_shards s.db.length)
    0 (by omega)]
  simp

/-- C9: every ReadSample call of the sharded reader advances `current_index`
by one entry — wrapping to the start index of its shard when the index
passes the shard end — keeps the LMDB cursor at that entry, and yields the
current entry's value copied into a tensor whose single shape extent equals
the value's byte size. -/
theorem readSample_advances_and_wraps (st : LMDBState)
    (hns : 0 < st.num_shards) (hid : st.shard_id < st.num_shards)
    (hpos : st.pos = st.current_index)
    (hhi : st.current_index < st.shard_end) :
    st.ReadSample.1.current_index =
      (if st.current_index + 1 < st.shard_end then st.current_index + 1
       else st.shard_start)
    ∧ st.ReadSample.1.pos = st.ReadSample.1.current_index
    ∧ st.ReadSample.1.db = st.db
    ∧ st.ReadSample.2.data = st.db.getD st.ReadSample.1.pos []
    ∧ st.ReadSample.2.shape = [st.ReadSample.2.data.length] := by
  have hendlen : st.shard_end ≤ st.db.length := start_index_le_len hns hid
  have hlen : 0 < st.db.length := by omega
  simp only [LMDBState.ReadSample, ShouldSkipImage, Bool.false_eq_true, if_false]
  by_cases hw : st.current_index + 1 < st.shard_end
  · have h1 : (⟨st.db, seekNext st.db.length st.pos, st.current_index + 1,
        st.shard_id, st.num_shards⟩ : LMDBState).current_index <
        (⟨st.db, seekNext st.db.length st.pos, st.current_index + 1,
          st.shard_id, st.num_shards⟩ : LMDBState).shard_end := hw
    have hseek : seekNext st.db.length st.pos = st.current_index + 1 := by
      unfold seekNext
      rw [hpos, if_pos (by omega)]
    rw [moveToNextShard_lt h1, if_pos hw]
    refine ⟨rfl, hseek, rfl, rfl, ?_⟩
    trivial
  · have h1 : (⟨st.db, seekNext st.db.length st.pos, st.current_index + 1,
        st.shard_id, st.num_shards⟩ : LMDBState).shard_end ≤
        (⟨st.db, seekNext st.db.length st.pos, st.current_index + 1,
          st.shard_id, st.num_shards⟩ : LMDBState).current_index := by
      show st.shard_end ≤ st.current_index + 1
      omega
    have h2 : start_index st.shard_id st.num_shards st.db.length <
        st.db.length := start_index_lt hns hid hlen
    rw [moveToNextShard_ge h1,
      reset_wrap ⟨st.db, seekNext st.db.length st.pos, st.current_index + 1,
        st.shard_id, st.num_shards⟩ h2, if_neg hw]
    refine ⟨rfl, rfl, rfl, rfl, ?_⟩
    trivial

/-- Witness for C9: on a three-entry single-shard store with the cursor at
entry 1, ReadSample advances to entry 2 and yields its one-byte value; the
shape records the byte size. -/
theorem readSample_advances_and_wraps_witness :
    (LMDBState.ReadSample ⟨[[1], [2, 3], [4]], 1, 1, 0, 1⟩).1.current_index =
      (if 1 + 1 < LMDBState.shard_end ⟨[[1], [2, 3], [4]], 1, 1, 0, 1⟩ then 1 + 1
       else LMDBState.shard_start ⟨[[1], [2, 3], [4]], 1, 1, 0, 1⟩)
    ∧ (LMDBState.ReadSample ⟨[[1], [2, 3], [4]], 1, 1, 0, 1⟩).1.pos =
        (LMDBState.ReadSample ⟨[[1], [2, 3], [4]], 1, 1, 0, 1⟩).1.current_index
    ∧ (LMDBState.ReadSample ⟨[[1], [2, 3], [4]], 1, 1, 0, 1⟩).1.db = [[1], [2, 3], [4]]
    ∧ (LMDBState.ReadSample ⟨[[1], [2, 3], [4]], 1, 1, 0, 1⟩).2.data =
        [[1], [2, 3], [4]].getD
          (LMDBState.ReadSample ⟨[[1], [2, 3], [4]], 1, 1, 0, 1⟩).1.pos []
    ∧ (LMDBState.ReadSample ⟨[[1], [2, 3], [4]], 1, 1, 0, 1⟩).2.shape =
        [(LMDBState.ReadSample ⟨[[1], [2, 3], [4]], 1, 1, 0, 1⟩).2.data.length] :=
  readSample_advances_and_wraps ⟨[[1], [2, 3], [4]], 1, 1, 0, 1⟩ (by decide)
    (by decide) (by decide) (by decide)

theorem countP_range_unique (q : Nat → Bool) (n k : Nat) (hk : k < n)
    (hq : ∀ m, q m = true ↔ m = k) : (List.range n).countP q = 1 := by
  induction n with
  | zero => omega
  | succ n ih =>
    rw [List.range_succ, List.countP_append]
    by_cases h : k < n
    · rw [ih h]
      have hf : q n = false := by
        cases hc : q n with
        | false => rfl
        | true => exact absurd ((hq n).mp hc) (by omega)
      simp [List.countP_cons, List.countP_nil, hf]
    · have hkn : k = n := by omega
      have h0 : (List.range n).countP q = 0 := by
        rw [List.countP_eq_zero]
        intro a ha
        have halt := List.mem_range.mp ha
        intro hqa
        have := (hq a).mp hqa
        omega
      have ht : q n = true := (hq n).mpr hkn.symm
      rw [h0]
      simp [List.countP_cons, List.countP_nil, ht]

theorem sum_map_range_single (g : Nat → Nat) (n k : Nat) (hk : k < n) (h1 : g k = 1)
    (h0 : ∀ m, m ≠ k → g m = 0) : ((List.range n).map g).sum = 1 := by
  induction n with
  | zero => omega
  | succ n ih =>
    rw [List.range_succ, List.map_append, List.sum_append]
    by_cases h : k < n
    · rw [ih h]
      have hn : g n = 0 := h0 n (by omega)
      simp [hn]
    · have hkn : k = n := by omega
      have hz : ((List.range n).map g).sum = 0 := by
        apply List.sum_eq_zero
        intro v hv
        rcases List.mem_map.mp hv with ⟨m, hm, rfl⟩
        exact h0 m (by have := List.mem_range.mp hm; omega)
      have h1' : g n = 1 := by rw [← hkn]; exact h1
      rw [hz]
      simp [h1']

theorem mul_lt_of_lt_ceil {t len r : Nat} (ht : 0 < t) (hr : r < (len + t - 1) / t) :
    r * t < len := by
  have h1 : r + 1 ≤ (len + t - 1) / t := hr
  have h2 : (r + 1) * t ≤ (len + t - 1) / t * t := mul_le_mul_right' h1 t
  have h3 : (len + t - 1) / t * t ≤ len + t - 1 := Nat.div_mul_le_self _ _
  have h4 : (r + 1) * t = r * t + t := Nat.succ_mul r t
  have h5 : 1 ≤ (len + t - 1) / t := by omega
  have h6 : 1 * t ≤ (len + t - 1) / t * t := mul_le_mul_right' h5 t
  have h7 : 1 * t = t := Nat.one_mul t
  omega

theorem div_lt_ceil {t len y : Nat} (ht : 0 < t) (hy : y < len) :
    y / t < (len + t - 1) / t := by
  have h1 : len + t - 1 = (len - 1) + t := by omega
  rw [h1, Nat.add_div_right _ ht]
  have h2 : y ≤ len - 1 := by omega
  have h3 : y / t ≤ (len - 1) / t := Nat.div_le_div_right h2
  omega

theorem oneD_cover_iff {t len y : Nat} (ht : 0 < t) (hy : y < len) (r : Nat) :
    (r * t ≤ y ∧ y < r * t + min t (len - r * t)) ↔ r = y / t := by
  constructor
  · rintro ⟨h1, h2⟩
    have hmin : min t (len - r * t) ≤ t := min_le_left _ _
    have h3 : y < (r + 1) * t := by
      have h4 : (r + 1) * t = r * t + t := Nat.succ_mul r t
      omega
    exact (Nat.div_eq_of_lt_le h1 h3).symm
  · rintro rfl
    have h1 : y / t * t ≤ y := Nat.div_mul_le_self y t
    have h2 : y / t < y / t + 1 := Nat.lt_succ_self _
    have h3 : y < (y / t + 1) * t := (Nat.div_lt_iff_lt_mul ht).mp h2
    have h4 : (y / t + 1) * t = y / t * t + t := Nat.succ_mul _ t
    refine ⟨h1, ?_⟩
    have h5 : y / t * t ≤ len := by omega
    rcases Nat.le_total t (len - y / t * t) with hm | hm
    · rw [min_eq_left hm]
      omega
    · rw [min_eq_right hm]
      omega

theorem oneD_cover_lt {t len y r : Nat}
    (h1 : r * t ≤ y) (h2 : y < r * t + min t (len - r * t)) : y < len := by
  rcases Nat.le_total (r * t) len with hc | hc
  · have h3 : min t (len - r * t) ≤ len - r * t := min_le_right _ _
    omega
  · have h3 : len - r * t = 0 := by omega
    rw [h3] at h2
    simp at h2
    omega

theorem sample_of_mem_sampleBlocks {b : BlockDesc} {i : Nat} {sh : TensorShape3}
    {t : Size2} (h : b ∈ sampleBlocks i sh t) : b.sample = i := by
  unfold sampleBlocks at h
  rcases List.mem_flatMap.mp h with ⟨r, _, hmem⟩
  rcases List.mem_map.mp hmem with ⟨c, _, rfl⟩
  rfl

theorem le_sample_of_mem_MakeBlocksFrom {b : BlockDesc} {t : Size2} :
    ∀ {shapes : List TensorShape3} {k : Nat}, b ∈ MakeBlocksFrom k shapes t →
      k ≤ b.sample := by
  intro shapes
  induction shapes with
  | nil =>
    intro k h
    simp [MakeBlocksFrom] at h
  | cons sh rest ih =>
    intro k h
    simp only [MakeBlocksFrom] at h
    rcases List.mem_append.mp h with h | h
    · rw [sample_of_mem_sampleBlocks h]
    · have := ih h
      omega

theorem extent_of_mem_sampleBlocks {b : BlockDesc} {i : Nat} {sh : TensorShape3}
    {t : Size2} (hth : 0 < t.h) (htw : 0 < t.w) (h : b ∈ sampleBlocks i sh t) :
    b.extentH = min t.h (sh.h - b.originY) ∧ b.extentW = min t.w (sh.w - b.originX) ∧
    b.originY + b.extentH ≤ sh.h ∧ b.originX + b.extentW ≤ sh.w := by
  unfold sampleBlocks at h
  rcases List.mem_flatMap.mp h with ⟨r, hr, hmem⟩
  rcases List.mem_map.mp hmem with ⟨c, hc, rfl⟩
  have hrlt : r * t.h < sh.h := mul_lt_of_lt_ceil hth (List.mem_range.mp hr)
  have hclt : c * t.w < sh.w := mul_lt_of_lt_ceil htw (List.mem_range.mp hc)
  refine ⟨rfl, rfl, ?_, ?_⟩
  · show r * t.h + min t.h (sh.h - r * t.h) ≤ sh.h
    have := min_le_right t.h (sh.h - r * t.h)
    omega
  · show c * t.w + min t.w (sh.w - c * t.w) ≤ sh.w
    have := min_le_right t.w (sh.w - c * t.w)
    omega

theorem countP_sampleBlocks (i y x : Nat) (sh : TensorShape3) (t : Size2)
    (hth : 0 < t.h) (htw : 0 < t.w) :
    (sampleBlocks i sh t).countP (fun b => b.covers y x) =
      if y < sh.h ∧ x < sh.w then 1 else 0 := by
  unfold sampleBlocks
  rw [List.countP_flatMap]
  by_cases hy : y < sh.h
  · by_cases hx : x < sh.w
    · rw [if_pos ⟨hy, hx⟩]
      apply sum_map_range_single _ _ (y / t.h) (div_lt_ceil hth hy)
      · show List.countP _ (List.map _ (List.range ((sh.w + t.w - 1) / t.w))) = 1
        rw [List.countP_map]
        apply countP_range_unique _ _ (x / t.w) (div_lt_ceil htw hx)
        intro c
        show BlockDesc.covers _ y x = true ↔ c = x / t.w
        simp only [BlockDesc.covers, decide_eq_true_eq]
        constructor
        · rintro ⟨-, -, hc1, hc2⟩
          exact (oneD_cover_iff htw hx c).mp ⟨hc1, hc2⟩
        · rintro rfl
          obtain ⟨hr1, hr2⟩ := (oneD_cover_iff hth hy (y / t.h)).mpr rfl
          obtain ⟨hc1, hc2⟩ := (oneD_cover_iff htw hx (x / t.w)).mpr rfl
          exact ⟨hr1, hr2, hc1, hc2⟩
      · intro m hm
        show List.countP _ (List.map _ (List.range ((sh.w + t.w - 1) / t.w))) = 0
        rw [List.countP_map, List.countP_eq_zero]
        intro c hc
        show ¬BlockDesc.covers _ y x = true
        simp only [BlockDesc.covers, decide_eq_true_eq]
        rintro ⟨hr1, hr2, -, -⟩
        exact hm ((oneD_cover_iff hth hy m).mp ⟨hr1, hr2⟩)
    · rw [if_neg (by tauto)]
      apply List.sum_eq_zero
      intro v hv
      rcases List.mem_map.mp hv with ⟨r, hr, rfl⟩
      show List.countP _ (List.map _ (List.range ((sh.w + t.w - 1) / t.w))) = 0
      rw [List.countP_map, List.countP_eq_zero]
      intro c hc
      show ¬BlockDesc.covers _ y x = true
      simp only [BlockDesc.covers, decide_eq_true_eq]
      rintro ⟨-, -, hc1, hc2⟩
      exact hx (oneD_cover_lt hc1 hc2)
  · rw [if_neg (by tauto)]
    apply List.sum_eq_zero
    intro v hv
    rcases List.mem_map.mp hv with ⟨r, hr, rfl⟩
    show List.countP _ (List.map _ (List.range ((sh.w + t.w - 1) / t.w))) = 0
    rw [List.countP_map, List.countP_eq_zero]
    intro c hc
    show ¬BlockDesc.covers _ y x = true
    simp only [BlockDesc.covers, decide_eq_true_eq]
    rintro ⟨hr1, hr2, -, -⟩
    exact hy (oneD_cover_lt hr1 hr2)

theorem filter_MakeBlocksFrom (t : Size2) (d : TensorShape3) :
    ∀ (shapes : List TensorShape3) (k i : Nat), i < shapes.length →
      (MakeBlocksFrom k shapes t).filter (fun b => decide (b.sample = k + i)) =
        sampleBlocks (k + i) (shapes.getD i d) t := by
  intro shapes
  induction shapes with
  | nil =>
    intro k i hi
    simp at hi
  | cons sh rest ih =>
    intro k i hi
    simp only [MakeBlocksFrom]
    rw [List.filter_append]
    cases i with
    | zero =>
      have h1 : (sampleBlocks k sh t).filter (fun b => decide (b.sample = k + 0)) =
          sampleBlocks k sh t := by
        rw [List.filter_eq_self]
        intro b hb
        simp [sample_of_mem_sampleBlocks hb]
      have h2 : (MakeBlocksFrom (k + 1) rest t).filter
          (fun b => decide (b.sample = k + 0)) = [] := by
        rw [List.filter_eq_nil_iff]
        intro b hb
        have hle := le_sample_of_mem_MakeBlocksFrom hb
        simp only [decide_eq_true_eq]
        omega
      rw [h1, h2, List.append_nil]
      rfl
    | succ j =>
      have h1 : (sampleBlocks k sh t).filter
          (fun b => decide (b.sample = k + (j + 1))) = [] := by
        rw [List.filter_eq_nil_iff]
        intro b hb
        rw [sample_of_mem_sampleBlocks hb]
        simp only [decide_eq_true_eq]
        omega
      have h3 : k + (j + 1) = (k + 1) + j := by omega
      have hj : j < rest.length := by
        simp only [List.length_cons] at hi
        omega
      rw [h1, List.nil_append, h3, ih (k + 1) j hj]
      rfl

theorem sorted_MakeBlocksFrom (t : Size2) :
    ∀ (shapes : List TensorShape3) (k : Nat),
      ((MakeBlocksFrom k shapes t).map BlockDesc.sample).Sorted (· ≤ ·) := by
  intro shapes
  induction shapes with
  | nil =>
    intro k
    simp [MakeBlocksFrom]
  | cons sh rest ih =>
    intro k
    simp only [MakeBlocksFrom, List.map_append]
    refine List.pairwise_append.mpr ⟨?_, ih (k + 1), ?_⟩
    · apply List.pairwise_of_forall_mem_list
      intro a ha b hb
      rcases List.mem_map.mp ha with ⟨b1, hb1, rfl⟩
      rcases List.mem_map.mp hb with ⟨b2, hb2, rfl⟩
      rw [sample_of_mem_sampleBlocks hb1, sample_of_mem_sampleBlocks hb2]
    · intro a ha b hb
      rcases List.mem_map.mp ha with ⟨b1, hb1, rfl⟩
      rcases List.mem_map.mp hb with ⟨b2, hb2, rfl⟩
      rw [sample_of_mem_sampleBlocks hb1]
      have := le_sample_of_mem_MakeBlocksFrom hb2
      omega

/-- C3: for a Variable-classified batch, the blocks referencing sample `i`
tile that sample's output rectangle exactly — every pixel inside the
rectangle is covered by exactly one such block (so the blocks are pairwise
disjoint and their union is the full rectangle) and every pixel outside by
none; the whole block sequence is in sample-major order; and each block of
sample `i` keeps its true extent — the minimum of the nominal tile size and
the remaining output extent — and stays inside the sample's rectangle. -/
theorem variable_blocks_exact_tiling (out_shapes : List TensorShape3) (i : Nat)
    (d : TensorShape3) (hi : i < out_shapes.length)
    (hvar : (WarpSetup.Setup out_shapes).IsUniformSize = false) :
    (∀ y x, (((WarpSetup.Setup out_shapes).Blocks.filter
        fun b => decide (b.sample = i)).countP fun b => b.covers y x) =
        (if y < (out_shapes.getD i d).h ∧ x < (out_shapes.getD i d).w then 1 else 0))
    ∧ ((WarpSetup.Setup out_shapes).Blocks.map BlockDesc.sample).Sorted (· ≤ ·)
    ∧ (∀ b ∈ (WarpSetup.Setup out_shapes).Blocks, b.sample = i →
        b.extentH = min tileSize.h ((out_shapes.getD i d).h - b.originY) ∧
        b.extentW = min tileSize.w ((out_shapes.getD i d).w - b.originX) ∧
        b.originY + b.extentH ≤ (out_shapes.getD i d).h ∧
        b.originX + b.extentW ≤ (out_shapes.getD i d).w) := by
  have huni : IsUniformShapeList out_shapes = false := by
    rw [← setup_uniform_eq]
    exact hvar
  have hblocks : (WarpSetup.Setup out_shapes).Blocks =
      MakeBlocksFrom 0 out_shapes tileSize := by
    unfold WarpSetup.Blocks WarpSetup.Setup
    simp [huni, MakeBlocks]
  have hfilter := filter_MakeBlocksFrom tileSize d out_shapes 0 i hi
  rw [Nat.zero_add] at hfilter
  refine ⟨?_, ?_, ?_⟩
  · intro y x
    rw [hblocks, hfilter]
    exact countP_sampleBlocks i y x (out_shapes.getD i d) tileSize
      (by decide) (by decide)
  · rw [hblocks]
    exact sorted_MakeBlocksFrom tileSize out_shapes 0
  · intro b hb hbs
    rw [hblocks] at hb
    have hmem : b ∈ (MakeBlocksFrom 0 out_shapes tileSize).filter
        (fun b => decide (b.sample = i)) :=
      List.mem_filter.mpr ⟨hb, by simp [hbs]⟩
    rw [hfilter] at hmem
    exact extent_of_mem_sampleBlocks (by decide) (by decide) hmem

/-- Witness for C3: the two-sample batch with output shapes 1 by 1 and 2 by 3
is Variable; the blocks of sample 1 tile its 2 by 3 rectangle exactly, the
sequence is sample-major, and extents are the true remaining extents. -/
theorem variable_blocks_exact_tiling_witness :
    (∀ y x, (((WarpSetup.Setup [⟨1, 1, 1⟩, ⟨2, 3, 1⟩]).Blocks.filter
        fun b => decide (b.sample = 1)).countP fun b => b.covers y x) =
        (if y < ([(⟨1, 1, 1⟩ : TensorShape3), ⟨2, 3, 1⟩].getD 1 ⟨0, 0, 0⟩).h ∧
            x < ([(⟨1, 1, 1⟩ : TensorShape3), ⟨2, 3, 1⟩].getD 1 ⟨0, 0, 0⟩).w
         then 1 else 0))
    ∧ ((WarpSetup.Setup [⟨1, 1, 1⟩, ⟨2, 3, 1⟩]).Blocks.map BlockDesc.sample).Sorted (· ≤ ·)
    ∧ (∀ b ∈ (WarpSetup.Setup [⟨1, 1, 1⟩, ⟨2, 3, 1⟩]).Blocks, b.sample = 1 →
        b.extentH = min tileSize.h
          (([(⟨1, 1, 1⟩ : TensorShape3), ⟨2, 3, 1⟩].getD 1 ⟨0, 0, 0⟩).h - b.originY) ∧
        b.extentW = min tileSize.w
          (([(⟨1, 1, 1⟩ : TensorShape3), ⟨2, 3, 1⟩].getD 1 ⟨0, 0, 0⟩).w - b.originX) ∧
        b.originY + b.extentH ≤ ([(⟨1, 1, 1⟩ : TensorShape3), ⟨2, 3, 1⟩].getD 1 ⟨0, 0, 0⟩).h ∧
        b.originX + b.extentW ≤ ([(⟨1, 1, 1⟩ : TensorShape3), ⟨2, 3, 1⟩].getD 1 ⟨0, 0, 0⟩).w) :=
  variable_blocks_exact_tiling [⟨1, 1, 1⟩, ⟨2, 3, 1⟩] 1 ⟨0, 0, 0⟩ (by decide) (by decide)

end DaliWarp
